import Mathlib

/-!
Shallow embedding of `src/fastai_course/quadratic_parameter_estimation.ipynb`.

The notebook fits the three parameters of a quadratic `f(x) = a*x^2 + b*x + c`
to samples `(x, y)` by four routes: closed-form regression via the normal
equations (`quadratic_regression`), fixed-iteration gradient descent with
torch autograd (`gradient_descent`), fixed-iteration gradient descent with a
hand-derived gradient (`gradient_descent_exact`), and a direct one-step
Newton update from the analytic Jacobian and the constant Hessian
(`jacobian`, `hessian`, cell `solution = params - np.dot(np.linalg.inv(hessian),
jacobian(params))`).

Modelling conventions:
* numpy/torch float arrays of length `n` become `Fin n → K` for a linear
  ordered field `K` (exact arithmetic idealisation of floating point);
  theorems are stated over an arbitrary such field and witnesses run at `K = ℚ`.
* `np.linalg.inv` raises `LinAlgError` exactly on a singular input; it is
  embedded as `np_linalg_inv`, returning `none` when the determinant is zero
  and the inverse matrix otherwise.
* the two gradient-descent loops run a fixed number of iterations; the Python
  local `cost` is unbound when the loop body never executes, so building the
  returned dict raises `NameError`; the embedding carries `lastCost : Option K`
  and the whole call returns `none` in that case.
* `np.random.randn(3)` (the initial guess of `gradient_descent_exact` and of
  the Newton cells) is an external random draw, passed in as an explicit
  argument.
* `cost.backward()` in `gradient_descent` adds the mathematical gradient of
  the sum-of-squared-residuals cost into `parameters.grad`; the source never
  zeroes `parameters.grad`, so the embedded step accumulates (`gradAcc`).
-/

open Matrix

variable {K : Type} [LinearOrderedField K] {n : Nat}

/-- Cell 3, `quadratic_factory`: builds the function `x ↦ a*x^2 + b*x + c`. -/
def quadratic_factory (a b c : K) : K → K := fun x => a * x ^ 2 + b * x + c

/-- Prediction `a*x**2 + b*x + c` evaluated elementwise at the sample vector,
for a parameter triple `p = (a, b, c)`; the expression appears verbatim in
`gradient_descent` (`y_predict`), `gradient_descent_exact` (`y_predict`) and
cell 19 (`y_prime`). -/
def y_predict (x : Fin n → K) (p : K × K × K) : Fin n → K :=
  fun i => p.1 * x i ^ 2 + p.2.1 * x i + p.2.2

/-- Sum-of-squared-residuals cost `torch.square(y_predict - y).sum()` /
`np.square(y_predict - y).sum()` used by both gradient-descent loops. -/
def sq_cost (x y : Fin n → K) (p : K × K × K) : K :=
  ∑ i, (y_predict x p i - y i) ^ 2

/-- `np.mean` of a length-`n` vector: the sum divided by `n`. -/
def np_mean (v : Fin n → K) : K := (∑ i, v i) / (n : K)

/-- The `N×3` design matrix `np.vstack((x**2, x, np.ones_like(x))).T` of
`quadratic_regression`, with columns `x²`, `x`, `1`. -/
def matrix_x (x : Fin n → K) : Matrix (Fin n) (Fin 3) K :=
  Matrix.of fun i j => ![x i ^ 2, x i, (1 : K)] j

/-- Explicit 3×3 determinant (cofactor expansion along the first row). -/
def det3 (M : Matrix (Fin 3) (Fin 3) K) : K :=
  M 0 0 * (M 1 1 * M 2 2 - M 1 2 * M 2 1)
    - M 0 1 * (M 1 0 * M 2 2 - M 1 2 * M 2 0)
    + M 0 2 * (M 1 0 * M 2 1 - M 1 1 * M 2 0)

/-- Explicit 3×3 adjugate (transpose of the cofactor matrix). -/
def adj3 (M : Matrix (Fin 3) (Fin 3) K) : Matrix (Fin 3) (Fin 3) K :=
  !![M 1 1 * M 2 2 - M 1 2 * M 2 1, M 0 2 * M 2 1 - M 0 1 * M 2 2,
       M 0 1 * M 1 2 - M 0 2 * M 1 1;
     M 1 2 * M 2 0 - M 1 0 * M 2 2, M 0 0 * M 2 2 - M 0 2 * M 2 0,
       M 0 2 * M 1 0 - M 0 0 * M 1 2;
     M 1 0 * M 2 1 - M 1 1 * M 2 0, M 0 1 * M 2 0 - M 0 0 * M 2 1,
       M 0 0 * M 1 1 - M 0 1 * M 1 0]

/-- Inverse of a nonsingular 3×3 matrix, `(det)⁻¹ • adjugate`; agrees with the
matrix inverse whenever the determinant is nonzero. -/
def inv3 (M : Matrix (Fin 3) (Fin 3) K) : Matrix (Fin 3) (Fin 3) K :=
  (det3 M)⁻¹ • adj3 M

/-- Embedding of `np.linalg.inv` on a 3×3 matrix: numpy raises
`LinAlgError("Singular matrix")` exactly when the matrix is singular (in the
exact-arithmetic idealisation), and otherwise returns the inverse. -/
def np_linalg_inv (M : Matrix (Fin 3) (Fin 3) K) :
    Option (Matrix (Fin 3) (Fin 3) K) :=
  if det3 M = 0 then none else some (inv3 M)

/-- Result dict of `quadratic_regression`: `dict(cost=cost, fit_params=best_fit)`. -/
structure QRResult (K : Type) where
  cost : K
  fit_params : Fin 3 → K

/-- Cell 6, `quadratic_regression`: builds the design matrix, inverts the
normal matrix (`np.linalg.inv(np.dot(matrix_x.T, matrix_x))`, an error on
singular input), forms `best_fit = np.dot(matrix_x_inv, y)` and the mean
squared residual `np.mean((y_predict - y) ** 2)`. -/
def quadratic_regression (x y : Fin n → K) : Option (QRResult K) :=
  (np_linalg_inv ((matrix_x x)ᵀ * matrix_x x)).map fun gramInv =>
    let matrix_x_inv := gramInv * (matrix_x x)ᵀ
    let best_fit := matrix_x_inv.mulVec y
    let yp := fun i => best_fit 0 * x i ^ 2 + best_fit 1 * x i + best_fit 2
    { cost := (∑ i, (yp i - y i) ^ 2) / (n : K), fit_params := best_fit }

/-- Semantics of `cost.backward()` in `gradient_descent`: the gradient of the
sum-of-squared-residuals cost with respect to the parameter triple, which is
what torch autograd computes for this expression:
`(2·Σ x²(ŷ−y), 2·Σ x(ŷ−y), 2·Σ (ŷ−y))`. Each `backward()` call ADDS this
vector into `parameters.grad` (torch accumulates; the loop never zeroes it). -/
def cost_gradient (x y : Fin n → K) (p : K × K × K) : K × K × K :=
  (2 * ∑ i, x i ^ 2 * (y_predict x p i - y i),
   2 * ∑ i, x i * (y_predict x p i - y i),
   2 * ∑ i, (y_predict x p i - y i))

/-- Loop state of `gradient_descent` (cell 8): the `parameters` tensor, its
accumulated `.grad`, the running `(best_cost, best_parameters)` pair
(`np.inf` and Python `None` modelled as `Option.none`), the three trace
lists, and the Python local `cost` (unbound before the first iteration). -/
structure GDState (K : Type) where
  params : K × K × K
  gradAcc : K × K × K
  bestCost : Option K
  bestParams : Option (K × K × K)
  costs : List K
  grads : List (K × K × K)
  paramsHist : List (K × K × K)
  lastCost : Option K

/-- Initial state of `gradient_descent`: `parameters = torch.ones(3)`,
`parameters.grad` not yet allocated (accumulation starts from zero),
`best_parameters = None`, `best_cost = np.inf`, empty trace lists. -/
def gd_init : GDState K :=
  { params := (1, 1, 1), gradAcc := (0, 0, 0), bestCost := none,
    bestParams := none, costs := [], grads := [], paramsHist := [],
    lastCost := none }

/-- One iteration of the `gradient_descent` while-loop: forward pass, cost,
`cost.backward()` (accumulating into `parameters.grad`), in-place update
`parameters -= gradient * learning_rate`, trace appends (`grads` records
`parameters.grad` after backward, `params` records the POST-update
parameters), and the `costs[-1] < best_cost` best-snapshot update. -/
def gd_step (x y : Fin n → K) (lr : K) (s : GDState K) : GDState K :=
  let cost := sq_cost x y s.params
  let g := cost_gradient x y s.params
  let acc := (s.gradAcc.1 + g.1, s.gradAcc.2.1 + g.2.1, s.gradAcc.2.2 + g.2.2)
  let p := (s.params.1 - acc.1 * lr, s.params.2.1 - acc.2.1 * lr,
            s.params.2.2 - acc.2.2 * lr)
  let isBetter : Bool :=
    match s.bestCost with
    | none => true
    | some b => decide (cost < b)
  { params := p, gradAcc := acc,
    bestCost := if isBetter then some cost else s.bestCost,
    bestParams := if isBetter then some p else s.bestParams,
    costs := s.costs ++ [cost],
    grads := s.grads ++ [acc],
    paramsHist := s.paramsHist ++ [p],
    lastCost := some cost }

/-- The `while iteration < max_iterations` loop of `gradient_descent`: apply
`gd_step` the given number of times. -/
def gd_iter (x y : Fin n → K) (lr : K) : Nat → GDState K → GDState K
  | 0, s => s
  | Nat.succ m, s => gd_iter x y lr m (gd_step x y lr s)

/-- Return dict of both gradient-descent variants:
`dict(cost=cost, costs=costs, grads=grads, params=params,
fit_params=best_parameters, iterations=iteration)`; for the exact variant the
`grads` dict of three parallel lists is kept as three list fields. -/
structure GDResult (K : Type) where
  cost : K
  costs : List K
  grads : List (K × K × K)
  params : List (K × K × K)
  fit_params : Option (K × K × K)
  iterations : Nat

/-- Cell 8, `gradient_descent`: run the loop `max_iterations` times from the
fixed start `(1,1,1)`; building the returned dict reads the local `cost`,
which raises `NameError` (here `none`) when no iteration ever ran. -/
def gradient_descent (x y : Fin n → K) (lr : K) (max_iterations : Nat) :
    Option (GDResult K) :=
  let s := gd_iter x y lr max_iterations gd_init
  s.lastCost.map fun c =>
    { cost := c, costs := s.costs, grads := s.grads, params := s.paramsHist,
      fit_params := s.bestParams, iterations := max_iterations }

/-- Loop state of `gradient_descent_exact` (cell 14): scalar parameters
`a, b, c`, the `(best_cost, best_parameters)` pair, the `grads` dict of three
parallel lists keyed "a", "b", "c", the `costs` and `params` lists, and the
Python local `cost`. -/
structure GDXState (K : Type) where
  params : K × K × K
  bestCost : Option K
  bestParams : Option (K × K × K)
  costs : List K
  gradsA : List K
  gradsB : List K
  gradsC : List K
  paramsHist : List (K × K × K)
  lastCost : Option K

/-- Initial state of `gradient_descent_exact`: `a, b, c = np.random.randn(3)`
is an external random draw, passed in as `p0`. -/
def gdx_init (p0 : K × K × K) : GDXState K :=
  { params := p0, bestCost := none, bestParams := none, costs := [],
    gradsA := [], gradsB := [], gradsC := [], paramsHist := [],
    lastCost := none }

/-- One iteration of the `gradient_descent_exact` while-loop: cost, the three
closed-form mean-scaled partial derivatives
`grad_a = 2*np.mean(x**2*((a*x**2+b*x+c)-y))` (likewise `grad_b`, `grad_c`),
parameter updates `a -= grad_a * learning_rate` (etc.), and the same trace
and best-snapshot bookkeeping as `gd_step` (`params` records the POST-update
triple). -/
def gdx_step (x y : Fin n → K) (lr : K) (s : GDXState K) : GDXState K :=
  let cost := sq_cost x y s.params
  let grad_a := 2 * np_mean (fun i => x i ^ 2 * (y_predict x s.params i - y i))
  let grad_b := 2 * np_mean (fun i => x i * (y_predict x s.params i - y i))
  let grad_c := 2 * np_mean (fun i => y_predict x s.params i - y i)
  let p := (s.params.1 - grad_a * lr, s.params.2.1 - grad_b * lr,
            s.params.2.2 - grad_c * lr)
  let isBetter : Bool :=
    match s.bestCost with
    | none => true
    | some b => decide (cost < b)
  { params := p,
    bestCost := if isBetter then some cost else s.bestCost,
    bestParams := if isBetter then some p else s.bestParams,
    costs := s.costs ++ [cost],
    gradsA := s.gradsA ++ [grad_a],
    gradsB := s.gradsB ++ [grad_b],
    gradsC := s.gradsC ++ [grad_c],
    paramsHist := s.paramsHist ++ [p],
    lastCost := some cost }

/-- The `while iteration < max_iterations` loop of `gradient_descent_exact`. -/
def gdx_iter (x y : Fin n → K) (lr : K) : Nat → GDXState K → GDXState K
  | 0, s => s
  | Nat.succ m, s => gdx_iter x y lr m (gdx_step x y lr s)

/-- Return dict of `gradient_descent_exact`, keeping the `grads` dict as three
parallel lists. -/
structure GDXResult (K : Type) where
  cost : K
  costs : List K
  gradsA : List K
  gradsB : List K
  gradsC : List K
  params : List (K × K × K)
  fit_params : Option (K × K × K)
  iterations : Nat

/-- Cell 14, `gradient_descent_exact`: run the loop `max_iterations` times from
the externally drawn start `p0`; as in `gradient_descent`, building the dict
raises `NameError` (here `none`) when no iteration ever ran. -/
def gradient_descent_exact (x y : Fin n → K) (lr : K) (max_iterations : Nat)
    (p0 : K × K × K) : Option (GDXResult K) :=
  let s := gdx_iter x y lr max_iterations (gdx_init p0)
  s.lastCost.map fun c =>
    { cost := c, costs := s.costs, gradsA := s.gradsA, gradsB := s.gradsB,
      gradsC := s.gradsC, params := s.paramsHist, fit_params := s.bestParams,
      iterations := max_iterations }

/-- Cell 19, `jacobian`: the analytic sum-scaled gradient of the
sum-of-squares loss, `[2·Σ x²(y_prime−y), 2·Σ x(y_prime−y), 2·Σ (y_prime−y)]`
at a parameter vector. -/
def jacobian (x y : Fin n → K) (p : Fin 3 → K) : Fin 3 → K :=
  let y_prime := fun i => p 0 * x i ^ 2 + p 1 * x i + p 2
  ![2 * ∑ i, x i ^ 2 * (y_prime i - y i),
    2 * ∑ i, x i * (y_prime i - y i),
    2 * ∑ i, (y_prime i - y i)]

/-- Cell 21, the constant Hessian matrix
`2·[[Σx⁴, Σx³, Σx²], [Σx³, Σx², Σx], [Σx², Σx, n_samples]]`
(in the notebook `n_samples` equals the length of `x`). -/
def hessian (x : Fin n → K) : Matrix (Fin 3) (Fin 3) K :=
  !![2 * ∑ i, x i ^ 4, 2 * ∑ i, x i ^ 3, 2 * ∑ i, x i ^ 2;
     2 * ∑ i, x i ^ 3, 2 * ∑ i, x i ^ 2, 2 * ∑ i, x i;
     2 * ∑ i, x i ^ 2, 2 * ∑ i, x i, 2 * (n : K)]

/-- Cell 23, the direct single-step Newton update
`solution = params - np.dot(np.linalg.inv(hessian), jacobian(params))`,
with `params` an external random draw passed in as `p`. -/
def newton_solution (x y : Fin n → K) (p : Fin 3 → K) : Option (Fin 3 → K) :=
  (np_linalg_inv (hessian x)).map fun hessianInv =>
    p - hessianInv.mulVec (jacobian x y p)

/-- A sample set: the pair of arrays `(x, y)` owned by the caller. Used to
thread the caller-visible arrays through each optimizer call and state that no
optimizer writes into them. -/
structure SampleSet (K : Type) (n : Nat) where
  xs : Fin n → K
  ys : Fin n → K

/-- `quadratic_regression` with the caller's arrays threaded through: every
statement of the body only reads `x` and `y` (all numpy calls allocate fresh
arrays), so the sample set reaching the caller afterwards is the one passed in. -/
def quadratic_regression_call (s : SampleSet K n) :
    SampleSet K n × Option (QRResult K) :=
  (s, quadratic_regression s.xs s.ys)

/-- One `gradient_descent` iteration with the caller's arrays threaded
through: the body reads the (locally rebound, `x = torch.Tensor(x)` copies)
arrays and writes only the local `parameters` tensor and trace lists. -/
def gd_step_call (lr : K) (σ : SampleSet K n × GDState K) :
    SampleSet K n × GDState K :=
  (σ.1, gd_step σ.1.xs σ.1.ys lr σ.2)

/-- The `gradient_descent` loop with the caller's arrays threaded through. -/
def gd_iter_call (lr : K) : Nat → SampleSet K n × GDState K →
    SampleSet K n × GDState K
  | 0, σ => σ
  | Nat.succ m, σ => gd_iter_call lr m (gd_step_call lr σ)

/-- One `gradient_descent_exact` iteration with the caller's arrays threaded
through: the body reads `x`, `y` and writes only the scalar locals and trace
lists. -/
def gdx_step_call (lr : K) (σ : SampleSet K n × GDXState K) :
    SampleSet K n × GDXState K :=
  (σ.1, gdx_step σ.1.xs σ.1.ys lr σ.2)

/-- The `gradient_descent_exact` loop with the caller's arrays threaded
through. -/
def gdx_iter_call (lr : K) : Nat → SampleSet K n × GDXState K →
    SampleSet K n × GDXState K
  | 0, σ => σ
  | Nat.succ m, σ => gdx_iter_call lr m (gdx_step_call lr σ)

lemma det3_eq_det (M : Matrix (Fin 3) (Fin 3) K) : det3 M = M.det := by
  rw [Matrix.det_fin_three]; unfold det3; ring

lemma mul_adj3 (M : Matrix (Fin 3) (Fin 3) K) : M * adj3 M = det3 M • 1 := by
  ext i j
  fin_cases i <;> fin_cases j <;>
    simp [adj3, det3, Matrix.mul_apply, Fin.sum_univ_succ, Matrix.one_apply] <;> ring

lemma adj3_mul (M : Matrix (Fin 3) (Fin 3) K) : adj3 M * M = det3 M • 1 := by
  ext i j
  fin_cases i <;> fin_cases j <;>
    simp [adj3, det3, Matrix.mul_apply, Fin.sum_univ_succ, Matrix.one_apply] <;> ring

lemma inv3_mul_self (M : Matrix (Fin 3) (Fin 3) K) (h : det3 M ≠ 0) :
    inv3 M * M = 1 := by
  unfold inv3
  rw [Matrix.smul_mul, adj3_mul, smul_smul, inv_mul_cancel₀ h, one_smul]

lemma self_mul_inv3 (M : Matrix (Fin 3) (Fin 3) K) (h : det3 M ≠ 0) :
    M * inv3 M = 1 := by
  unfold inv3
  rw [Matrix.mul_smul, mul_adj3, smul_smul, inv_mul_cancel₀ h, one_smul]

lemma det3_smul (c : K) (M : Matrix (Fin 3) (Fin 3) K) :
    det3 (c • M) = c ^ 3 * det3 M := by
  simp [det3, Matrix.smul_apply]; ring

lemma matrix_x_mulVec (x : Fin n → K) (w : Fin 3 → K) :
    (matrix_x x).mulVec w = fun i => w 0 * x i ^ 2 + w 1 * x i + w 2 := by
  funext i
  simp [matrix_x, Matrix.mulVec, Matrix.dotProduct, Fin.sum_univ_succ]
  ring

lemma hessian_eq (x : Fin n → K) :
    hessian x = (2 : K) • ((matrix_x x)ᵀ * matrix_x x) := by
  ext i j
  fin_cases i <;> fin_cases j <;>
    · simp [hessian, matrix_x, Matrix.mul_apply, Matrix.smul_apply, Finset.mul_sum,
        Matrix.transpose_apply, Finset.sum_const, Finset.card_univ, mul_comm]
      try exact Finset.sum_congr rfl fun k _ => by ring

lemma jacobian_eq (x y : Fin n → K) (p : Fin 3 → K) :
    jacobian x y p = (2 : K) • (matrix_x x)ᵀ.mulVec ((matrix_x x).mulVec p - y) := by
  funext j
  rw [matrix_x_mulVec]
  fin_cases j <;>
    · simp [jacobian, matrix_x, Matrix.mulVec, Matrix.dotProduct, Fin.sum_univ_succ,
        Matrix.transpose_apply, Finset.mul_sum]
      try exact Finset.sum_congr rfl fun k _ => by ring

lemma quad_vanishing_three_roots {w0 w1 w2 u v t : K} (huv : u ≠ v) (hut : u ≠ t)
    (hvt : v ≠ t) (hu : w0 * u ^ 2 + w1 * u + w2 = 0)
    (hv : w0 * v ^ 2 + w1 * v + w2 = 0) (ht : w0 * t ^ 2 + w1 * t + w2 = 0) :
    w0 = 0 ∧ w1 = 0 ∧ w2 = 0 := by
  have h1 : (u - v) * (w0 * (u + v) + w1) = 0 := by linear_combination hu - hv
  have h2 : (v - t) * (w0 * (v + t) + w1) = 0 := by linear_combination hv - ht
  have h1' : w0 * (u + v) + w1 = 0 :=
    (mul_eq_zero.mp h1).resolve_left (sub_ne_zero.mpr huv)
  have h2' : w0 * (v + t) + w1 = 0 :=
    (mul_eq_zero.mp h2).resolve_left (sub_ne_zero.mpr hvt)
  have h3 : w0 * (u - t) = 0 := by linear_combination h1' - h2'
  have hw0 : w0 = 0 := (mul_eq_zero.mp h3).resolve_right (sub_ne_zero.mpr hut)
  have hw1 : w1 = 0 := by linear_combination h1' - (u + v) * hw0
  refine ⟨hw0, hw1, ?_⟩
  linear_combination hu - u ^ 2 * hw0 - u * hw1

lemma gram_det_zero_of_two_values (x : Fin n → K) (u v : K)
    (h : ∀ i, x i = u ∨ x i = v) :
    det3 ((matrix_x x)ᵀ * matrix_x x) = 0 := by
  rw [det3_eq_det]
  rw [← Matrix.exists_mulVec_eq_zero_iff]
  refine ⟨![1, -(u + v), u * v], ?_, ?_⟩
  · intro hz
    have : (1 : K) = 0 := congrFun hz 0
    simp at this
  · rw [← Matrix.mulVec_mulVec, matrix_x_mulVec]
    have hx : (fun i => ![(1:K), -(u + v), u * v] 0 * x i ^ 2 +
        ![(1:K), -(u + v), u * v] 1 * x i + ![(1:K), -(u + v), u * v] 2)
        = (0 : Fin n → K) := by
      funext i
      rcases h i with hi | hi <;> · simp [hi]; ring
    rw [hx, Matrix.mulVec_zero]

lemma gram_det_ne_zero_of_three_distinct (x : Fin n → K) {i j k : Fin n}
    (hij : x i ≠ x j) (hik : x i ≠ x k) (hjk : x j ≠ x k) :
    det3 ((matrix_x x)ᵀ * matrix_x x) ≠ 0 := by
  intro hdet
  rw [det3_eq_det, ← Matrix.exists_mulVec_eq_zero_iff] at hdet
  obtain ⟨w, hw, hGw⟩ := hdet
  rw [← Matrix.mulVec_mulVec] at hGw
  have hdot : (matrix_x x).mulVec w ⬝ᵥ (matrix_x x).mulVec w = 0 := by
    have h1 : w ⬝ᵥ ((matrix_x x)ᵀ *ᵥ ((matrix_x x) *ᵥ w)) = 0 := by
      rw [hGw, Matrix.dotProduct_zero]
    rwa [Matrix.dotProduct_mulVec, Matrix.vecMul_transpose] at h1
  have hXw : (matrix_x x).mulVec w = 0 := Matrix.dotProduct_self_eq_zero.mp hdot
  rw [matrix_x_mulVec] at hXw
  have hvan : ∀ t : Fin n, w 0 * x t ^ 2 + w 1 * x t + w 2 = 0 := fun t => congrFun hXw t
  obtain ⟨h0, h1, h2⟩ := quad_vanishing_three_roots hij hik hjk (hvan i) (hvan j) (hvan k)
  apply hw
  funext t
  fin_cases t <;> simp [h0, h1, h2]

lemma gd_iter_succ (x y : Fin n → K) (lr : K) :
    ∀ (m : Nat) (s : GDState K),
      gd_iter x y lr (m + 1) s = gd_step x y lr (gd_iter x y lr m s)
  | 0, s => rfl
  | Nat.succ m, s => gd_iter_succ x y lr m (gd_step x y lr s)

lemma gdx_iter_succ (x y : Fin n → K) (lr : K) :
    ∀ (m : Nat) (s : GDXState K),
      gdx_iter x y lr (m + 1) s = gdx_step x y lr (gdx_iter x y lr m s)
  | 0, s => rfl
  | Nat.succ m, s => gdx_iter_succ x y lr m (gdx_step x y lr s)

lemma sq_cost_nonneg (x y : Fin n → K) (p : K × K × K) : 0 ≤ sq_cost x y p :=
  Finset.sum_nonneg fun _ _ => sq_nonneg _

lemma gd_lengths (x y : Fin n → K) (lr : K) (M : Nat) :
    (gd_iter x y lr M gd_init).costs.length = M ∧
    (gd_iter x y lr M gd_init).grads.length = M ∧
    (gd_iter x y lr M gd_init).paramsHist.length = M := by
  induction M with
  | zero => simp [gd_iter, gd_init]
  | succ m ih =>
    rw [gd_iter_succ]
    simp only [gd_step, List.length_append, List.length_singleton]
    omega

lemma gd_lastCost (x y : Fin n → K) (lr : K) (M : Nat) :
    (gd_iter x y lr M gd_init).lastCost = (gd_iter x y lr M gd_init).costs.getLast? := by
  induction M with
  | zero => simp [gd_iter, gd_init]
  | succ m _ =>
    rw [gd_iter_succ]
    simp only [gd_step, List.getLast?_concat]

lemma gd_costs_nonneg (x y : Fin n → K) (lr : K) (M : Nat) :
    ∀ c ∈ (gd_iter x y lr M gd_init).costs, 0 ≤ c := by
  induction M with
  | zero => simp [gd_iter, gd_init]
  | succ m ih =>
    rw [gd_iter_succ]
    simp only [gd_step, List.mem_append, List.mem_singleton]
    rintro c (hc | rfl)
    · exact ih c hc
    · exact sq_cost_nonneg x y _

lemma gd_best_inv (x y : Fin n → K) (lr : K) (M : Nat) :
    ((gd_iter x y lr M gd_init).bestCost = none ∧
     (gd_iter x y lr M gd_init).bestParams = none ∧
     (gd_iter x y lr M gd_init).costs = []) ∨
    (∃ (b : K) (p : K × K × K) (kk : Nat),
      (gd_iter x y lr M gd_init).bestCost = some b ∧
      (gd_iter x y lr M gd_init).bestParams = some p ∧
      (gd_iter x y lr M gd_init).costs[kk]? = some b ∧
      (gd_iter x y lr M gd_init).paramsHist[kk]? = some p ∧
      ∀ c ∈ (gd_iter x y lr M gd_init).costs, b ≤ c) := by
  induction M with
  | zero => left; simp [gd_iter, gd_init]
  | succ m ih =>
    rw [gd_iter_succ]
    set t := gd_iter x y lr m gd_init with ht
    have hlen : t.costs.length = t.paramsHist.length := by
      rw [(gd_lengths x y lr m).1, (gd_lengths x y lr m).2.2]
    rcases ih with ⟨hbc, hbp, hcs⟩ | ⟨b, p, kk, hbc, hbp, hget, hgetp, hmin⟩
    · right
      have hph : t.paramsHist = [] := by
        rw [hcs] at hlen; exact (List.length_eq_zero.mp hlen.symm)
      refine ⟨sq_cost x y t.params, (gd_step x y lr t).params, 0, ?_, ?_, ?_, ?_, ?_⟩
      · simp [gd_step, hbc]
      · simp [gd_step, hbc]
      · simp [gd_step, hcs]
      · simp [gd_step, hph]
      · simp only [gd_step, List.mem_append, List.mem_singleton]
        rintro c (hcm | rfl)
        · rw [hcs] at hcm; simp at hcm
        · exact le_refl _
    · by_cases hc : sq_cost x y t.params < b
      · refine Or.inr ⟨sq_cost x y t.params, (gd_step x y lr t).params,
          t.costs.length, ?_, ?_, ?_, ?_, ?_⟩
        · simp [gd_step, hbc, hc]
        · simp [gd_step, hbc, hc]
        · simp [gd_step]
        · simp only [gd_step]
          rw [hlen]
          simp
        · simp only [gd_step, List.mem_append, List.mem_singleton]
          rintro c (hcm | rfl)
          · exact hc.le.trans (hmin c hcm)
          · exact le_refl _
      · obtain ⟨hkk, -⟩ := List.getElem?_eq_some.mp hget
        obtain ⟨hkkp, -⟩ := List.getElem?_eq_some.mp hgetp
        refine Or.inr ⟨b, p, kk, ?_, ?_, ?_, ?_, ?_⟩
        · simp [gd_step, hbc, hc]
        · simp [gd_step, hbc, hc, hbp]
        · simp only [gd_step]
          rw [List.getElem?_append_left hkk]
          exact hget
        · simp only [gd_step]
          rw [List.getElem?_append_left hkkp]
          exact hgetp
        · simp only [gd_step, List.mem_append, List.mem_singleton]
          rintro c (hcm | rfl)
          · exact hmin c hcm
          · exact le_of_not_lt hc

lemma gdx_lengths (x y : Fin n → K) (lr : K) (p0 : K × K × K) (M : Nat) :
    (gdx_iter x y lr M (gdx_init p0)).costs.length = M ∧
    (gdx_iter x y lr M (gdx_init p0)).gradsA.length = M ∧
    (gdx_iter x y lr M (gdx_init p0)).gradsB.length = M ∧
    (gdx_iter x y lr M (gdx_init p0)).gradsC.length = M ∧
    (gdx_iter x y lr M (gdx_init p0)).paramsHist.length = M := by
  induction M with
  | zero => simp [gdx_iter, gdx_init]
  | succ m ih =>
    rw [gdx_iter_succ]
    simp only [gdx_step, List.length_append, List.length_singleton]
    omega

lemma gdx_lastCost (x y : Fin n → K) (lr : K) (p0 : K × K × K) (M : Nat) :
    (gdx_iter x y lr M (gdx_init p0)).lastCost =
      (gdx_iter x y lr M (gdx_init p0)).costs.getLast? := by
  induction M with
  | zero => simp [gdx_iter, gdx_init]
  | succ m _ =>
    rw [gdx_iter_succ]
    simp only [gdx_step, List.getLast?_concat]

lemma gdx_costs_nonneg (x y : Fin n → K) (lr : K) (p0 : K × K × K) (M : Nat) :
    ∀ c ∈ (gdx_iter x y lr M (gdx_init p0)).costs, 0 ≤ c := by
  induction M with
  | zero => simp [gdx_iter, gdx_init]
  | succ m ih =>
    rw [gdx_iter_succ]
    simp only [gdx_step, List.mem_append, List.mem_singleton]
    rintro c (hc | rfl)
    · exact ih c hc
    · exact sq_cost_nonneg x y _

lemma gdx_best_inv (x y : Fin n → K) (lr : K) (p0 : K × K × K) (M : Nat) :
    ((gdx_iter x y lr M (gdx_init p0)).bestCost = none ∧
     (gdx_iter x y lr M (gdx_init p0)).bestParams = none ∧
     (gdx_iter x y lr M (gdx_init p0)).costs = []) ∨
    (∃ (b : K) (p : K × K × K) (kk : Nat),
      (gdx_iter x y lr M (gdx_init p0)).bestCost = some b ∧
      (gdx_iter x y lr M (gdx_init p0)).bestParams = some p ∧
      (gdx_iter x y lr M (gdx_init p0)).costs[kk]? = some b ∧
      (gdx_iter x y lr M (gdx_init p0)).paramsHist[kk]? = some p ∧
      ∀ c ∈ (gdx_iter x y lr M (gdx_init p0)).costs, b ≤ c) := by
  induction M with
  | zero => left; simp [gdx_iter, gdx_init]
  | succ m ih =>
    rw [gdx_iter_succ]
    set t := gdx_iter x y lr m (gdx_init p0) with ht
    have hlen : t.costs.length = t.paramsHist.length := by
      rw [(gdx_lengths x y lr p0 m).1, (gdx_lengths x y lr p0 m).2.2.2.2]
    rcases ih with ⟨hbc, hbp, hcs⟩ | ⟨b, p, kk, hbc, hbp, hget, hgetp, hmin⟩
    · right
      have hph : t.paramsHist = [] := by
        rw [hcs] at hlen; exact (List.length_eq_zero.mp hlen.symm)
      refine ⟨sq_cost x y t.params, (gdx_step x y lr t).params, 0, ?_, ?_, ?_, ?_, ?_⟩
      · simp [gdx_step, hbc]
      · simp [gdx_step, hbc]
      · simp [gdx_step, hcs]
      · simp [gdx_step, hph]
      · simp only [gdx_step, List.mem_append, List.mem_singleton]
        rintro c (hcm | rfl)
        · rw [hcs] at hcm; simp at hcm
        · exact le_refl _
    · by_cases hc : sq_cost x y t.params < b
      · refine Or.inr ⟨sq_cost x y t.params, (gdx_step x y lr t).params,
          t.costs.length, ?_, ?_, ?_, ?_, ?_⟩
        · simp [gdx_step, hbc, hc]
        · simp [gdx_step, hbc, hc]
        · simp [gdx_step]
        · simp only [gdx_step]
          rw [hlen]
          simp
        · simp only [gdx_step, List.mem_append, List.mem_singleton]
          rintro c (hcm | rfl)
          · exact hc.le.trans (hmin c hcm)
          · exact le_refl _
      · obtain ⟨hkk, -⟩ := List.getElem?_eq_some.mp hget
        obtain ⟨hkkp, -⟩ := List.getElem?_eq_some.mp hgetp
        refine Or.inr ⟨b, p, kk, ?_, ?_, ?_, ?_, ?_⟩
        · simp [gdx_step, hbc, hc]
        · simp [gdx_step, hbc, hc, hbp]
        · simp only [gdx_step]
          rw [List.getElem?_append_left hkk]
          exact hget
        · simp only [gdx_step]
          rw [List.getElem?_append_left hkkp]
          exact hgetp
        · simp only [gdx_step, List.mem_append, List.mem_singleton]
          rintro c (hcm | rfl)
          · exact hmin c hcm
          · exact le_of_not_lt hc

lemma gdx_grads_trace (x y : Fin n → K) (lr : K) (p0 : K × K × K) :
    ∀ (M k : Nat), k < M →
      (gdx_iter x y lr M (gdx_init p0)).gradsA[k]? =
        some (2 * np_mean (fun i =>
          x i ^ 2 * (y_predict x (gdx_iter x y lr k (gdx_init p0)).params i - y i))) ∧
      (gdx_iter x y lr M (gdx_init p0)).gradsB[k]? =
        some (2 * np_mean (fun i =>
          x i * (y_predict x (gdx_iter x y lr k (gdx_init p0)).params i - y i))) ∧
      (gdx_iter x y lr M (gdx_init p0)).gradsC[k]? =
        some (2 * np_mean (fun i =>
          y_predict x (gdx_iter x y lr k (gdx_init p0)).params i - y i)) := by
  intro M
  induction M with
  | zero => intro k hk; omega
  | succ m ih =>
    intro k hk
    rw [gdx_iter_succ]
    rcases Nat.lt_or_ge k m with hkm | hkm
    · obtain ⟨h1, h2, h3⟩ := ih k hkm
      refine ⟨?_, ?_, ?_⟩ <;> simp only [gdx_step]
      · rw [List.getElem?_append_left (by rw [(gdx_lengths x y lr p0 m).2.1]; exact hkm)]
        exact h1
      · rw [List.getElem?_append_left (by rw [(gdx_lengths x y lr p0 m).2.2.1]; exact hkm)]
        exact h2
      · rw [List.getElem?_append_left (by rw [(gdx_lengths x y lr p0 m).2.2.2.1]; exact hkm)]
        exact h3
    · have hk' : k = m := by omega
      subst hk'
      refine ⟨?_, ?_, ?_⟩ <;> simp only [gdx_step]
      · have hcl := List.getElem?_concat_length
          (gdx_iter x y lr k (gdx_init p0)).gradsA
          (2 * np_mean fun i =>
            x i ^ 2 * (y_predict x (gdx_iter x y lr k (gdx_init p0)).params i - y i))
        rwa [(gdx_lengths x y lr p0 k).2.1] at hcl
      · have hcl := List.getElem?_concat_length
          (gdx_iter x y lr k (gdx_init p0)).gradsB
          (2 * np_mean fun i =>
            x i * (y_predict x (gdx_iter x y lr k (gdx_init p0)).params i - y i))
        rwa [(gdx_lengths x y lr p0 k).2.2.1] at hcl
      · have hcl := List.getElem?_concat_length
          (gdx_iter x y lr k (gdx_init p0)).gradsC
          (2 * np_mean fun i =>
            y_predict x (gdx_iter x y lr k (gdx_init p0)).params i - y i)
        rwa [(gdx_lengths x y lr p0 k).2.2.2.1] at hcl

/-- Helper: the normal matrix maps the regression solution back to the
projected targets `Xᵀy`. -/
lemma gram_mulVec_fit (x y : Fin n → K)
    (h : det3 ((matrix_x x)ᵀ * matrix_x x) ≠ 0) :
    ((matrix_x x)ᵀ * matrix_x x).mulVec
        ((inv3 ((matrix_x x)ᵀ * matrix_x x) * (matrix_x x)ᵀ).mulVec y) =
      (matrix_x x)ᵀ.mulVec y := by
  rw [Matrix.mulVec_mulVec, ← Matrix.mul_assoc, self_mul_inv3 _ h, Matrix.one_mul]

/-- C1: for every non-degenerate sample set (normal matrix with nonzero
determinant) and every starting triple `p`, the single-step Newton update
`p − H⁻¹·J(p)` of cell 23 — with `J` the sum-based analytic gradient and `H`
the constant 3×3 Hessian — equals the closed-form solution `(XᵀX)⁻¹Xᵀy`
computed by `quadratic_regression` on the same samples. -/
theorem newton_step_eq_regression (x y : Fin n → K) (p : Fin 3 → K)
    (h : det3 ((matrix_x x)ᵀ * matrix_x x) ≠ 0) :
    ∃ (s : Fin 3 → K) (r : QRResult K),
      newton_solution x y p = some s ∧ quadratic_regression x y = some r ∧
      s = r.fit_params := by
  have hdH : det3 (hessian x) ≠ 0 := by
    rw [hessian_eq, det3_smul]
    exact mul_ne_zero (pow_ne_zero 3 two_ne_zero) h
  have hinv : np_linalg_inv ((matrix_x x)ᵀ * matrix_x x)
      = some (inv3 ((matrix_x x)ᵀ * matrix_x x)) := by
    simp [np_linalg_inv, h]
  have hinvH : np_linalg_inv (hessian x) = some (inv3 (hessian x)) := by
    simp [np_linalg_inv, hdH]
  have hreg : ∃ r : QRResult K, quadratic_regression x y = some r ∧
      r.fit_params = (inv3 ((matrix_x x)ᵀ * matrix_x x) * (matrix_x x)ᵀ).mulVec y := by
    unfold quadratic_regression
    rw [hinv]
    exact ⟨_, rfl, rfl⟩
  obtain ⟨r, hregeq, hfitp⟩ := hreg
  refine ⟨p - (inv3 (hessian x)).mulVec (jacobian x y p), r, ?_, hregeq, ?_⟩
  · unfold newton_solution
    rw [hinvH]
    rfl
  · rw [hfitp]
    set fit := (inv3 ((matrix_x x)ᵀ * matrix_x x) * (matrix_x x)ᵀ).mulVec y with hfit
    have hkey : (hessian x).mulVec (p - fit) = jacobian x y p := by
      rw [jacobian_eq, hessian_eq, Matrix.smul_mulVec_assoc, Matrix.mulVec_sub,
        hfit, gram_mulVec_fit x y h, Matrix.mulVec_sub, Matrix.mulVec_mulVec]
    rw [← hkey, Matrix.mulVec_mulVec, inv3_mul_self _ hdH, Matrix.one_mulVec,
      sub_sub_cancel]

/-- C5: for every ground-truth triple `(a,b,c)` and every sample vector `x`
containing at least 3 distinct values, running `quadratic_regression` on the
noise-free samples `(x, a·x²+b·x+c)` returns exactly `(a,b,c)` with mean
squared residual zero. -/
theorem regression_recovers_noise_free (a b c : K) (x : Fin n → K) (i j k : Fin n)
    (hij : x i ≠ x j) (hik : x i ≠ x k) (hjk : x j ≠ x k) :
    ∃ r : QRResult K,
      quadratic_regression x (fun t => quadratic_factory a b c (x t)) = some r ∧
      r.fit_params = ![a, b, c] ∧ r.cost = 0 := by
  have h := gram_det_ne_zero_of_three_distinct x hij hik hjk
  have hinv : np_linalg_inv ((matrix_x x)ᵀ * matrix_x x)
      = some (inv3 ((matrix_x x)ᵀ * matrix_x x)) := by
    simp [np_linalg_inv, h]
  have hy : (fun t => quadratic_factory a b c (x t))
      = (matrix_x x).mulVec ![a, b, c] := by
    rw [matrix_x_mulVec]
    funext t
    simp [quadratic_factory]
  have hfit : (inv3 ((matrix_x x)ᵀ * matrix_x x) * (matrix_x x)ᵀ).mulVec
      ((fun t => quadratic_factory a b c (x t))) = ![a, b, c] := by
    rw [hy, Matrix.mulVec_mulVec, Matrix.mul_assoc, inv3_mul_self _ h,
      Matrix.one_mulVec]
  unfold quadratic_regression
  rw [hinv]
  refine ⟨_, rfl, hfit, ?_⟩
  show (∑ t, ((inv3 ((matrix_x x)ᵀ * matrix_x x) * (matrix_x x)ᵀ).mulVec
      (fun t => quadratic_factory a b c (x t)) 0 * x t ^ 2 +
      (inv3 ((matrix_x x)ᵀ * matrix_x x) * (matrix_x x)ᵀ).mulVec
      (fun t => quadratic_factory a b c (x t)) 1 * x t +
      (inv3 ((matrix_x x)ᵀ * matrix_x x) * (matrix_x x)ᵀ).mulVec
      (fun t => quadratic_factory a b c (x t)) 2
      - quadratic_factory a b c (x t)) ^ 2) / (n : K) = 0
  rw [hfit]
  have hz : ∀ t : Fin n,
      (![a, b, c] 0 * x t ^ 2 + ![a, b, c] 1 * x t + ![a, b, c] 2
        - quadratic_factory a b c (x t)) ^ 2 = 0 := by
    intro t
    simp [quadratic_factory]
  rw [Finset.sum_congr rfl fun t _ => hz t]
  simp

/-- C4: whenever `x` takes fewer than 3 distinct values (all entries equal to
`u` or `v`), the normal matrix is singular, `np.linalg.inv` raises
(`LinAlgError`, modelled as `none`), and `quadratic_regression` fails with an
error result instead of returning a numerical triple. -/
theorem regression_rejects_degenerate (x y : Fin n → K) (u v : K)
    (h : ∀ i, x i = u ∨ x i = v) : quadratic_regression x y = none := by
  unfold quadratic_regression
  rw [np_linalg_inv, if_pos (gram_det_zero_of_two_values x u v h)]
  rfl

lemma gd_iter_call_fst (lr : K) :
    ∀ (m : Nat) (σ : SampleSet K n × GDState K), (gd_iter_call lr m σ).1 = σ.1
  | 0, _ => rfl
  | Nat.succ m, σ => gd_iter_call_fst lr m (gd_step_call lr σ)

lemma gdx_iter_call_fst (lr : K) :
    ∀ (m : Nat) (σ : SampleSet K n × GDXState K), (gdx_iter_call lr m σ).1 = σ.1
  | 0, _ => rfl
  | Nat.succ m, σ => gdx_iter_call_fst lr m (gdx_step_call lr σ)

/-- C9: no optimizer mutates the sample set: threading the caller's arrays
through `quadratic_regression` and through every iteration of both
gradient-descent loops leaves `(x, y)` unchanged. -/
theorem optimizers_preserve_samples (σ : SampleSet K n) (lr : K) (M : Nat)
    (p0 : K × K × K) :
    (quadratic_regression_call σ).1 = σ ∧
    (gd_iter_call lr M (σ, gd_init)).1 = σ ∧
    (gdx_iter_call lr M (σ, gdx_init p0)).1 = σ :=
  ⟨rfl, gd_iter_call_fst lr M (σ, gd_init), gdx_iter_call_fst lr M (σ, gdx_init p0)⟩

/-- C10: with `max_iterations = 0` the loop body never runs, the Python local
`cost` is never bound, and building the returned dict raises `NameError`
(modelled as `none`) for both variants; at that point the best-parameters and
best-cost slots still hold their initial empty values. -/
theorem zero_iterations_fail (x y : Fin n → K) (lr : K) (p0 : K × K × K) :
    gradient_descent x y lr 0 = none ∧
    gradient_descent_exact x y lr 0 p0 = none ∧
    (gd_iter x y lr 0 gd_init).bestParams = none ∧
    (gd_iter x y lr 0 gd_init).bestCost = none ∧
    (gdx_iter x y lr 0 (gdx_init p0)).bestParams = none ∧
    (gdx_iter x y lr 0 (gdx_init p0)).bestCost = none :=
  ⟨rfl, rfl, rfl, rfl, rfl, rfl⟩

/-- C7: for every run of either gradient-descent variant, every recorded cost
is non-negative, and the tracked best-cost value never exceeds any recorded
cost (hence never exceeds the minimum of the recorded cost sequence). -/
theorem costs_nonneg_best_le (x y : Fin n → K) (lr : K) (M : Nat) (p0 : K × K × K) :
    (∀ c ∈ (gd_iter x y lr M gd_init).costs, 0 ≤ c) ∧
    (∀ bb : K, (gd_iter x y lr M gd_init).bestCost = some bb →
      ∀ c ∈ (gd_iter x y lr M gd_init).costs, bb ≤ c) ∧
    (∀ c ∈ (gdx_iter x y lr M (gdx_init p0)).costs, 0 ≤ c) ∧
    (∀ bb : K, (gdx_iter x y lr M (gdx_init p0)).bestCost = some bb →
      ∀ c ∈ (gdx_iter x y lr M (gdx_init p0)).costs, bb ≤ c) := by
  refine ⟨gd_costs_nonneg x y lr M, ?_, gdx_costs_nonneg x y lr p0 M, ?_⟩
  · intro bb hbb
    rcases gd_best_inv x y lr M with ⟨hbc, -, -⟩ | ⟨b, p, kk, hbc, -, -, -, hmin⟩
    · rw [hbb] at hbc; exact absurd hbc (by simp)
    · rw [hbb] at hbc
      injection hbc with hv
      rw [hv]
      exact hmin
  · intro bb hbb
    rcases gdx_best_inv x y lr p0 M with ⟨hbc, -, -⟩ | ⟨b, p, kk, hbc, -, -, -, hmin⟩
    · rw [hbb] at hbc; exact absurd hbc (by simp)
    · rw [hbb] at hbc
      injection hbc with hv
      rw [hv]
      exact hmin

lemma gd_lastCost_some (x y : Fin n → K) (lr : K) (M : Nat) (hM : 1 ≤ M) :
    ∃ cc, (gd_iter x y lr M gd_init).lastCost = some cc := by
  obtain ⟨m, rfl⟩ : ∃ m, M = m + 1 := ⟨M - 1, by omega⟩
  rw [gd_iter_succ]
  exact ⟨_, rfl⟩

lemma gdx_lastCost_some (x y : Fin n → K) (lr : K) (p0 : K × K × K) (M : Nat)
    (hM : 1 ≤ M) :
    ∃ cc, (gdx_iter x y lr M (gdx_init p0)).lastCost = some cc := by
  obtain ⟨m, rfl⟩ : ∃ m, M = m + 1 := ⟨M - 1, by omega⟩
  rw [gdx_iter_succ]
  exact ⟨_, rfl⟩

/-- C8: for every input and every `max_iterations = M ≥ 1`, both
gradient-descent variants terminate after exactly `M` iterations with no
convergence check, returning cost, gradient and parameter histories of
length exactly `M`, an iteration count of `M`, the best parameters, and the
final cost (the last entry of the cost history). -/
theorem fixed_iteration_termination (x y : Fin n → K) (lr : K) (M : Nat)
    (p0 : K × K × K) (hM : 1 ≤ M) :
    (∃ r : GDResult K, gradient_descent x y lr M = some r ∧
      r.iterations = M ∧ r.costs.length = M ∧ r.grads.length = M ∧
      r.params.length = M ∧ r.costs.getLast? = some r.cost ∧
      ∃ bp, r.fit_params = some bp) ∧
    (∃ rx : GDXResult K, gradient_descent_exact x y lr M p0 = some rx ∧
      rx.iterations = M ∧ rx.costs.length = M ∧ rx.gradsA.length = M ∧
      rx.gradsB.length = M ∧ rx.gradsC.length = M ∧ rx.params.length = M ∧
      rx.costs.getLast? = some rx.cost ∧ ∃ bp, rx.fit_params = some bp) := by
  constructor
  · obtain ⟨cc, hcc⟩ := gd_lastCost_some x y lr M hM
    have hbp : ∃ bp, (gd_iter x y lr M gd_init).bestParams = some bp := by
      rcases gd_best_inv x y lr M with ⟨-, -, hcs⟩ | ⟨b, p, kk, -, hb, -, -, -⟩
      · have := (gd_lengths x y lr M).1
        rw [hcs] at this
        simp at this
        omega
      · exact ⟨p, hb⟩
    obtain ⟨bp, hbp⟩ := hbp
    simp only [gradient_descent]
    rw [hcc]
    simp only [Option.map_some']
    refine ⟨_, rfl, rfl, (gd_lengths x y lr M).1, (gd_lengths x y lr M).2.1,
      (gd_lengths x y lr M).2.2, ?_, bp, hbp⟩
    show (gd_iter x y lr M gd_init).costs.getLast? = some cc
    rw [← gd_lastCost]
    exact hcc
  · obtain ⟨cc, hcc⟩ := gdx_lastCost_some x y lr p0 M hM
    have hbp : ∃ bp, (gdx_iter x y lr M (gdx_init p0)).bestParams = some bp := by
      rcases gdx_best_inv x y lr p0 M with ⟨-, -, hcs⟩ | ⟨b, p, kk, -, hb, -, -, -⟩
      · have := (gdx_lengths x y lr p0 M).1
        rw [hcs] at this
        simp at this
        omega
      · exact ⟨p, hb⟩
    obtain ⟨bp, hbp⟩ := hbp
    simp only [gradient_descent_exact]
    rw [hcc]
    simp only [Option.map_some']
    refine ⟨_, rfl, rfl, (gdx_lengths x y lr p0 M).1, (gdx_lengths x y lr p0 M).2.1,
      (gdx_lengths x y lr p0 M).2.2.1, (gdx_lengths x y lr p0 M).2.2.2.1,
      (gdx_lengths x y lr p0 M).2.2.2.2, ?_, bp, hbp⟩
    show (gdx_iter x y lr M (gdx_init p0)).costs.getLast? = some cc
    rw [← gdx_lastCost]
    exact hcc

/-- C3 (amended): for both gradient-descent variants and any run of at least
one iteration, the returned `fit_params` is the post-update parameter
snapshot appended at an iteration whose recorded cost is the minimum of the
recorded cost sequence (the cost at `fit_params` itself may differ, see the
counterexample). -/
theorem best_snapshot_tracking (x y : Fin n → K) (lr : K) (M : Nat)
    (p0 : K × K × K) (hM : 1 ≤ M) :
    (∃ (r : GDResult K) (bb : K) (p : K × K × K) (kk : Nat),
      gradient_descent x y lr M = some r ∧ r.fit_params = some p ∧
      r.costs[kk]? = some bb ∧ r.params[kk]? = some p ∧
      ∀ cc ∈ r.costs, bb ≤ cc) ∧
    (∃ (rx : GDXResult K) (bb : K) (p : K × K × K) (kk : Nat),
      gradient_descent_exact x y lr M p0 = some rx ∧ rx.fit_params = some p ∧
      rx.costs[kk]? = some bb ∧ rx.params[kk]? = some p ∧
      ∀ cc ∈ rx.costs, bb ≤ cc) := by
  constructor
  · obtain ⟨cc, hcc⟩ := gd_lastCost_some x y lr M hM
    rcases gd_best_inv x y lr M with ⟨-, -, hcs⟩ | ⟨b, p, kk, -, hb, hg, hgp, hmin⟩
    · have := (gd_lengths x y lr M).1
      rw [hcs] at this
      simp at this
      omega
    · simp only [gradient_descent]
      rw [hcc]
      simp only [Option.map_some']
      exact ⟨_, b, p, kk, rfl, hb, hg, hgp, hmin⟩
  · obtain ⟨cc, hcc⟩ := gdx_lastCost_some x y lr p0 M hM
    rcases gdx_best_inv x y lr p0 M with ⟨-, -, hcs⟩ | ⟨b, p, kk, -, hb, hg, hgp, hmin⟩
    · have := (gdx_lengths x y lr p0 M).1
      rw [hcs] at this
      simp at this
      omega
    · simp only [gradient_descent_exact]
      rw [hcc]
      simp only [Option.map_some']
      exact ⟨_, b, p, kk, rfl, hb, hg, hgp, hmin⟩

/-- C6: in `gradient_descent_exact`, at every iteration `k` the recorded
gradient components equal `2·mean(x²·(ŷ−y))`, `2·mean(x·(ŷ−y))` and
`2·mean(ŷ−y)` with `ŷ` evaluated at that iteration's current (pre-update)
parameters, and the initial parameter triple is the externally drawn `p0`
(the `np.random.randn(3)` draw), not the fixed `(1,1,1)`. -/
theorem exact_gradient_formula (x y : Fin n → K) (lr : K) (M : Nat)
    (p0 : K × K × K) (k : Nat) (hk : k < M) :
    (∃ rx : GDXResult K, gradient_descent_exact x y lr M p0 = some rx ∧
      rx.gradsA[k]? = some (2 * np_mean (fun i =>
        x i ^ 2 * (y_predict x (gdx_iter x y lr k (gdx_init p0)).params i - y i))) ∧
      rx.gradsB[k]? = some (2 * np_mean (fun i =>
        x i * (y_predict x (gdx_iter x y lr k (gdx_init p0)).params i - y i))) ∧
      rx.gradsC[k]? = some (2 * np_mean (fun i =>
        y_predict x (gdx_iter x y lr k (gdx_init p0)).params i - y i))) ∧
    (gdx_iter x y lr 0 (gdx_init p0)).params = p0 := by
  refine ⟨?_, rfl⟩
  obtain ⟨cc, hcc⟩ := gdx_lastCost_some x y lr p0 M (by omega)
  obtain ⟨h1, h2, h3⟩ := gdx_grads_trace x y lr p0 M k hk
  simp only [gradient_descent_exact]
  rw [hcc]
  simp only [Option.map_some']
  exact ⟨_, rfl, h1, h2, h3⟩

/-- C2 (code-bug evidence): in `gradient_descent`, `parameters.grad` is never
zeroed, so `cost.backward()` accumulates. On `x = [1]`, `y = [0]`,
`learning_rate = 1/4`, two iterations: the gradient recorded and used at
iteration 1 is the accumulated `(3,3,3)`, while the gradient of that
iteration's cost at its current parameters `(-1/2,-1/2,-1/2)` is
`(-3,-3,-3)`; consequently `params[1] = (-5/4,…)` instead of `(1/4,…)`. -/
theorem autodiff_gradient_accumulates :
    ((gradient_descent ![(1:ℚ)] ![0] (1/4) 2).map fun r => (r.grads, r.params))
      = some ([(6, 6, 6), (3, 3, 3)],
          [(-(1:ℚ)/2, -(1:ℚ)/2, -(1:ℚ)/2), (-(5:ℚ)/4, -(5:ℚ)/4, -(5:ℚ)/4)]) ∧
    cost_gradient ![(1:ℚ)] ![0] (-(1:ℚ)/2, -(1:ℚ)/2, -(1:ℚ)/2) = (-3, -3, -3) ∧
    ((3:ℚ), (3:ℚ), (3:ℚ)) ≠ ((-3:ℚ), (-3:ℚ), (-3:ℚ)) := by
  refine ⟨?_, ?_, ?_⟩
  · norm_num [gradient_descent, gd_iter, gd_step, gd_init, sq_cost, cost_gradient,
      y_predict, Fin.sum_univ_succ]
  · norm_num [cost_gradient, y_predict, Fin.sum_univ_succ]
  · norm_num

/-- C3 (counterexample): on `x = [0]`, `y = [0]`, `learning_rate = 1/4`, one
iteration from `(0,0,1)`, `gradient_descent_exact` records the cost sequence
`[1]` (minimum `1`) but returns `fit_params = (0,0,1/2)` — the POST-update
snapshot — whose cost is `1/4 ≠ 1`. So evaluating the cost at the returned
`fit_params` does not give the minimum of the recorded cost sequence. -/
theorem best_cost_param_mismatch :
    ((gradient_descent_exact ![(0:ℚ)] ![0] (1/4) 1 (0, 0, 1)).map fun r =>
      (r.costs, r.fit_params)) = some ([1], some (0, 0, 1/2)) ∧
    sq_cost ![(0:ℚ)] ![0] (0, 0, 1/2) = 1/4 ∧ ((1:ℚ)/4) ≠ 1 := by
  refine ⟨?_, ?_, ?_⟩
  · norm_num [gradient_descent_exact, gdx_iter, gdx_step, gdx_init, sq_cost,
      np_mean, y_predict, Fin.sum_univ_succ]
  · norm_num [sq_cost, y_predict, Fin.sum_univ_succ]
  · norm_num

/-- Witness for the Newton-equals-regression theorem at `x = (0,1,2)`,
`y = (1,2,3)`, `p = (5,5,5)`: the normal-matrix determinant is nonzero
there. -/
theorem newton_step_eq_regression_witness :
    ∃ (s : Fin 3 → ℚ) (r : QRResult ℚ),
      newton_solution ![(0:ℚ), 1, 2] ![1, 2, 3] ![5, 5, 5] = some s ∧
      quadratic_regression ![(0:ℚ), 1, 2] ![1, 2, 3] = some r ∧
      s = r.fit_params :=
  newton_step_eq_regression ![(0:ℚ), 1, 2] ![1, 2, 3] ![5, 5, 5] (by
    simp [det3, matrix_x, Matrix.mul_apply, Fin.sum_univ_succ]
    norm_num)

/-- Witness for the amended best-snapshot theorem at a concrete one-iteration
run of both variants. -/
theorem best_snapshot_tracking_witness :
    (∃ (r : GDResult ℚ) (bb : ℚ) (p : ℚ × ℚ × ℚ) (kk : Nat),
      gradient_descent ![(1:ℚ)] ![0] 1 1 = some r ∧ r.fit_params = some p ∧
      r.costs[kk]? = some bb ∧ r.params[kk]? = some p ∧
      ∀ cc ∈ r.costs, bb ≤ cc) ∧
    (∃ (rx : GDXResult ℚ) (bb : ℚ) (p : ℚ × ℚ × ℚ) (kk : Nat),
      gradient_descent_exact ![(1:ℚ)] ![0] 1 1 (1, 2, 3) = some rx ∧
      rx.fit_params = some p ∧ rx.costs[kk]? = some bb ∧
      rx.params[kk]? = some p ∧ ∀ cc ∈ rx.costs, bb ≤ cc) :=
  best_snapshot_tracking ![(1:ℚ)] ![0] 1 1 (1, 2, 3) (by norm_num)

/-- Witness for the degenerate-input theorem at `x = (2,2,5)`, which has only
two distinct values. -/
theorem regression_rejects_degenerate_witness :
    quadratic_regression ![(2:ℚ), 2, 5] ![0, 0, 0] = none :=
  regression_rejects_degenerate ![(2:ℚ), 2, 5] ![0, 0, 0] 2 5 (by
    intro i
    fin_cases i <;> simp)

/-- Witness for the noise-free recovery theorem at `(a,b,c) = (2,3,5)` and
`x = (0,1,2)`. -/
theorem regression_recovers_noise_free_witness :
    ∃ r : QRResult ℚ,
      quadratic_regression ![(0:ℚ), 1, 2]
        (fun t => quadratic_factory 2 3 5 (![(0:ℚ), 1, 2] t)) = some r ∧
      r.fit_params = ![2, 3, 5] ∧ r.cost = 0 :=
  regression_recovers_noise_free 2 3 5 ![(0:ℚ), 1, 2] 0 1 2 (by norm_num)
    (by norm_num) (by norm_num)

/-- Witness for the exact-gradient-formula theorem at a concrete one-iteration
run started from `(1,2,3)`. -/
theorem exact_gradient_formula_witness :
    (∃ rx : GDXResult ℚ, gradient_descent_exact ![(1:ℚ)] ![0] 1 1 (1, 2, 3) = some rx ∧
      rx.gradsA[0]? = some (2 * np_mean (fun i =>
        ![(1:ℚ)] i ^ 2 *
          (y_predict ![(1:ℚ)] (gdx_iter ![(1:ℚ)] ![0] 1 0 (gdx_init (1, 2, 3))).params i
            - ![(0:ℚ)] i))) ∧
      rx.gradsB[0]? = some (2 * np_mean (fun i =>
        ![(1:ℚ)] i *
          (y_predict ![(1:ℚ)] (gdx_iter ![(1:ℚ)] ![0] 1 0 (gdx_init (1, 2, 3))).params i
            - ![(0:ℚ)] i))) ∧
      rx.gradsC[0]? = some (2 * np_mean (fun i =>
        y_predict ![(1:ℚ)] (gdx_iter ![(1:ℚ)] ![0] 1 0 (gdx_init (1, 2, 3))).params i
          - ![(0:ℚ)] i))) ∧
    (gdx_iter ![(1:ℚ)] ![0] 1 0 (gdx_init (1, 2, 3))).params = (1, 2, 3) :=
  exact_gradient_formula ![(1:ℚ)] ![0] 1 1 (1, 2, 3) 0 (by norm_num)

/-- Witness for the cost-invariant theorem: on `x = (1)`, `y = (0)`,
`learning_rate = 0`, one iteration, the recorded costs are `9` (autodiff
variant, start `(1,1,1)`) and `36` (exact variant, start `(1,2,3)`), each
non-negative and bounded below by the tracked best cost. -/
theorem costs_nonneg_best_le_witness :
    ((0:ℚ) ≤ 9 ∧ (9:ℚ) ≤ 9) ∧ ((0:ℚ) ≤ 36 ∧ (36:ℚ) ≤ 36) := by
  have h := costs_nonneg_best_le ![(1:ℚ)] ![0] 0 1 (1, 2, 3)
  have hmem : (9:ℚ) ∈ (gd_iter ![(1:ℚ)] ![0] 0 1 gd_init).costs := by
    norm_num [gd_iter, gd_step, gd_init, sq_cost, cost_gradient, y_predict,
      Fin.sum_univ_succ]
  have hbc : (gd_iter ![(1:ℚ)] ![0] 0 1 gd_init).bestCost = some 9 := by
    norm_num [gd_iter, gd_step, gd_init, sq_cost, cost_gradient, y_predict,
      Fin.sum_univ_succ]
  have hmemx : (36:ℚ) ∈ (gdx_iter ![(1:ℚ)] ![0] 0 1 (gdx_init (1, 2, 3))).costs := by
    norm_num [gdx_iter, gdx_step, gdx_init, sq_cost, np_mean, y_predict,
      Fin.sum_univ_succ]
  have hbcx : (gdx_iter ![(1:ℚ)] ![0] 0 1 (gdx_init (1, 2, 3))).bestCost = some 36 := by
    norm_num [gdx_iter, gdx_step, gdx_init, sq_cost, np_mean, y_predict,
      Fin.sum_univ_succ]
  exact ⟨⟨h.1 9 hmem, h.2.1 9 hbc 9 hmem⟩,
    ⟨h.2.2.1 36 hmemx, h.2.2.2 36 hbcx 36 hmemx⟩⟩

/-- Witness for the fixed-iteration termination theorem at a concrete
one-iteration run of both variants. -/
theorem fixed_iteration_termination_witness :
    (∃ r : GDResult ℚ, gradient_descent ![(1:ℚ)] ![0] 1 1 = some r ∧
      r.iterations = 1 ∧ r.costs.length = 1 ∧ r.grads.length = 1 ∧
      r.params.length = 1 ∧ r.costs.getLast? = some r.cost ∧
      ∃ bp, r.fit_params = some bp) ∧
    (∃ rx : GDXResult ℚ, gradient_descent_exact ![(1:ℚ)] ![0] 1 1 (1, 2, 3) = some rx ∧
      rx.iterations = 1 ∧ rx.costs.length = 1 ∧ rx.gradsA.length = 1 ∧
      rx.gradsB.length = 1 ∧ rx.gradsC.length = 1 ∧ rx.params.length = 1 ∧
      rx.costs.getLast? = some rx.cost ∧ ∃ bp, rx.fit_params = some bp) :=
  fixed_iteration_termination ![(1:ℚ)] ![0] 1 1 (1, 2, 3) (by norm_num)
